import Mathlib

/-!
Shallow embedding of the GitHub API client module `lib/githubapi.py` from
magnetikonline/githubutilities.

Python dicts are modelled as insertion-ordered association lists
(`List (String × PV)` for request parameters, `List (String × String)` for
HTTP headers), with `dictSet` mirroring Python dict item assignment
(overwrite in place, otherwise append).  The standard-library services used
by the module (`urllib.parse.quote`, `urllib.parse.quote_plus`,
`urllib.parse.urlencode`, `json.dumps`, the `str()` of a `bytes` value) are
embedded from their documented CPython behaviour.  The HTTP transport
(`urllib.request.urlopen`) and the response decoder (`json.load`) are
black-box collaborators and are passed in as function parameters.
-/

/-- Module constant `API_BASE_URL`. -/
def API_BASE_URL : String := "https://api.github.com"

/-- Module constant `REQUEST_ACCEPT_VERSION`. -/
def REQUEST_ACCEPT_VERSION : String := "application/vnd.github.v3+json"

/-- Module constant `REQUEST_USER_AGENT`. -/
def REQUEST_USER_AGENT : String := "magnetikonline/githubutilities 1.0"

/-- Module constant `REQUEST_DATA_CONTENT_TYPE`. -/
def REQUEST_DATA_CONTENT_TYPE : String := "application/json"

/-- Module constant `REQUEST_PAGE_SIZE`. -/
def REQUEST_PAGE_SIZE : Nat := 20

/-- A Python parameter value: the module passes `str` or `bool` values
(`Dict[str, Union[bool, str]]`). -/
inductive PV where
  | s (value : String)
  | b (value : Bool)
deriving DecidableEq

/-- Python dict item assignment `d[k] = v` on an insertion-ordered
association list: overwrite in place when the key is present, else append. -/
def dictSet {β : Type} (d : List (String × β)) (k : String) (v : β) :
    List (String × β) :=
  if d.any (fun kv => kv.1 == k) then
    d.map (fun kv => if kv.1 == k then (k, v) else kv)
  else
    d ++ [(k, v)]

/-- Python `str()` of a parameter value: strings unchanged, booleans render
as `True` / `False`. -/
def pyStr : PV → String
  | PV.s value => value
  | PV.b true => "True"
  | PV.b false => "False"

/-- Uppercase hexadecimal digit of `n % 16`. -/
def hexUpper (n : Nat) : Char :=
  if n % 16 < 10 then Char.ofNat (48 + n % 16) else Char.ofNat (55 + n % 16)

/-- Lowercase hexadecimal digit of `n % 16`. -/
def hexLower (n : Nat) : Char :=
  if n % 16 < 10 then Char.ofNat (48 + n % 16) else Char.ofNat (87 + n % 16)

/-- UTF-8 byte sequence of the code point `n`. -/
def utf8Bytes (n : Nat) : List Nat :=
  if n < 128 then [n]
  else if n < 2048 then [192 + n / 64, 128 + n % 64]
  else if n < 65536 then [224 + n / 4096, 128 + (n / 64) % 64, 128 + n % 64]
  else [240 + n / 262144, 128 + (n / 4096) % 64, 128 + (n / 64) % 64,
        128 + n % 64]

/-- CPython `urllib.parse` always-safe characters: ASCII letters, digits
and `_ . - ~`. -/
def alwaysSafeChar (c : Char) : Bool :=
  (65 ≤ c.toNat && c.toNat ≤ 90) || (97 ≤ c.toNat && c.toNat ≤ 122) ||
  (48 ≤ c.toNat && c.toNat ≤ 57) ||
  c == '_' || c == '.' || c == '-' || c == '~'

/-- Percent-escape of one byte: `%` followed by two uppercase hex digits. -/
def percentByte (b : Nat) : List Char :=
  ['%', hexUpper (b / 16), hexUpper b]

/-- One character of `urllib.parse.quote` output: a safe character passes
through, any other character has each of its UTF-8 bytes percent-escaped. -/
def quoteChar (safe : Char → Bool) (c : Char) : List Char :=
  if safe c then [c] else (utf8Bytes c.toNat).flatMap percentByte

/-- CPython `urllib.parse.quote(value)` with its default `safe` set, which
contains the slash. -/
def urllib_parse_quote (value : String) : String :=
  String.mk (value.data.flatMap (quoteChar (fun c => alwaysSafeChar c || c == '/')))

/-- CPython `urllib.parse.quote_plus(value)`: space becomes `+`, the safe
set is empty beyond the always-safe characters. -/
def urllib_parse_quote_plus (value : String) : String :=
  String.mk (value.data.flatMap
    (fun c => if c == ' ' then ['+'] else quoteChar alwaysSafeChar c))

/-- CPython `urllib.parse.urlencode(query)` over an ordered mapping with
string keys and string/boolean values: `quote_plus(str(k)) ++ "=" ++
quote_plus(str(v))` pairs joined by `&`. -/
def urllib_parse_urlencode (query : List (String × PV)) : String :=
  String.intercalate "&"
    (query.map (fun kv =>
      urllib_parse_quote_plus kv.1 ++ "=" ++ urllib_parse_quote_plus (pyStr kv.2)))

/-- Four-hex-digit `\uXXXX` escape (lowercase hex), as emitted by
`json.dumps` with `ensure_ascii`. -/
def uEscape (n : Nat) : String :=
  String.mk [Char.ofNat 92, 'u', hexLower (n / 4096), hexLower (n / 256),
             hexLower (n / 16), hexLower n]

/-- JSON escape of one character, following `json.dumps` with the default
`ensure_ascii=True`. -/
def jsonEscapeChar (c : Char) : String :=
  if c == '"' then String.mk [Char.ofNat 92, '"']
  else if c == '\\' then String.mk [Char.ofNat 92, Char.ofNat 92]
  else if c.toNat == 8 then String.mk [Char.ofNat 92, 'b']
  else if c.toNat == 9 then String.mk [Char.ofNat 92, 't']
  else if c.toNat == 10 then String.mk [Char.ofNat 92, 'n']
  else if c.toNat == 12 then String.mk [Char.ofNat 92, 'f']
  else if c.toNat == 13 then String.mk [Char.ofNat 92, 'r']
  else if c.toNat < 32 || 127 ≤ c.toNat then
    if c.toNat < 65536 then uEscape c.toNat
    else uEscape (55296 + (c.toNat - 65536) / 1024) ++
         uEscape (56320 + (c.toNat - 65536) % 1024)
  else String.singleton c

/-- JSON encoding of a string value (quoted, escaped). -/
def jsonString (s : String) : String :=
  "\"" ++ String.join (s.data.map jsonEscapeChar) ++ "\""

/-- JSON encoding of a parameter value. -/
def jsonValue : PV → String
  | PV.s value => jsonString value
  | PV.b true => "true"
  | PV.b false => "false"

/-- CPython `json.dumps(d, separators=(",", ":"))` of an ordered string-keyed
mapping. -/
def json_dumps (d : List (String × PV)) : String :=
  "\x7b" ++
    String.intercalate ","
      (d.map (fun kv => jsonString kv.1 ++ ":" ++ jsonValue kv.2)) ++
  "\x7d"

/-- Quote character chosen by CPython `bytes.__repr__`: a single quote,
unless the bytes contain one and no double quote. -/
def bytesReprQuote (bs : List Nat) : Char :=
  if bs.contains 39 && !(bs.contains 34) then Char.ofNat 34 else Char.ofNat 39

/-- CPython `bytes.__repr__` rendering of one byte, given the chosen quote
character. -/
def byteRepr (quote : Nat) (b : Nat) : List Char :=
  if b == quote || b == 92 then [Char.ofNat 92, Char.ofNat b]
  else if b == 9 then [Char.ofNat 92, 't']
  else if b == 10 then [Char.ofNat 92, 'n']
  else if b == 13 then [Char.ofNat 92, 'r']
  else if b < 32 || 127 ≤ b then [Char.ofNat 92, 'x', hexLower (b / 16), hexLower b]
  else [Char.ofNat b]

/-- CPython `str()` of a `bytes` value: its repr, `b` prefix and quotes
included.  This is what line 71 of the source applies to `err.read()`. -/
def pyStrOfBytes (bs : List Nat) : String :=
  let q := bytesReprQuote bs
  String.mk ('b' :: q :: (bs.flatMap (byteRepr q.toNat) ++ [q]))

/-- The `urllib.request.Request` object assembled by `_request`: URL,
ordered header mapping, optional explicit method, optional body. -/
structure PyRequest where
  url : String
  headers : List (String × String)
  method : Option String
  data : Option String
deriving DecidableEq

/-- Request construction part of `_request` (source lines 29-64): base URL,
headers with optional authorization, then either querystring encoding (GET)
or JSON body encoding (other methods). -/
def buildRequest (auth_token : Option String) (api_path : String)
    (method : Option String) (parameter_collection : List (String × PV)) :
    PyRequest :=
  let request_url := API_BASE_URL ++ "/" ++ api_path
  let header_collection : List (String × String) :=
    [("Accept", REQUEST_ACCEPT_VERSION), ("User-Agent", REQUEST_USER_AGENT)]
  let header_collection :=
    match auth_token with
    | some token => dictSet header_collection "Authorization" ("token " ++ token)
    | none => header_collection
  match method with
  | none =>
    let request_url :=
      if parameter_collection.isEmpty then request_url
      else request_url ++ "?" ++ urllib_parse_urlencode parameter_collection
    { url := request_url, headers := header_collection, method := none,
      data := none }
  | some m =>
    let data_send :=
      if parameter_collection.isEmpty then ""
      else json_dumps parameter_collection
    let header_collection :=
      if parameter_collection.isEmpty then header_collection
      else dictSet header_collection "Content-Type" REQUEST_DATA_CONTENT_TYPE
    { url := request_url, headers := header_collection, method := some m,
      data := if data_send == "" then none else some data_send }

/-- Outcome of one `urllib.request.urlopen` call: a successful response
body, an `urllib.error.HTTPError` with status code and body bytes, or any
other raised transport exception. -/
inductive UrlopenResult where
  | success (body : String)
  | httpError (code : Nat) (body : List Nat)
  | raised (message : String)
deriving DecidableEq

/-- Outcome of `_request`: a decoded value, a raised `APIRequestError`
(fields `http_code` and `response`, source lines 14-20), an uncaught
transport exception, or an uncaught `json.load` exception. -/
inductive RequestOutcome (J : Type) where
  | ok (value : J)
  | apiRequestError (http_code : Nat) (response : String)
  | urlopenRaised (message : String)
  | jsonRaised (message : String)
deriving DecidableEq

/-- `_request` (source lines 23-77), parametrised by the transport
(`urlopen`) and the decoder (`json.load`).  Only `urllib.error.HTTPError`
is caught and re-raised as `APIRequestError(err.code, str(err.read()))`;
every other failure propagates as itself.  Alongside the outcome, the list
of issued requests (always exactly one) is returned. -/
def _request {J : Type} (urlopen : PyRequest → UrlopenResult)
    (json_load : String → Except String J)
    (auth_token : Option String) (api_path : String)
    (method : Option String := none)
    (parameter_collection : List (String × PV) := []) :
    RequestOutcome J × List PyRequest :=
  let request := buildRequest auth_token api_path method parameter_collection
  let outcome :=
    match urlopen request with
    | UrlopenResult.httpError code body =>
        RequestOutcome.apiRequestError code (pyStrOfBytes body)
    | UrlopenResult.raised message => RequestOutcome.urlopenRaised message
    | UrlopenResult.success body =>
        match json_load body with
        | Except.ok value => RequestOutcome.ok value
        | Except.error e => RequestOutcome.jsonRaised e
  (outcome, [request])

/-- The paging parameter mapping built on each iteration of
`_request_paged` (source lines 101-105): a copy of the base parameters with
`page=str(request_page)` and `per_page=str(REQUEST_PAGE_SIZE)` assigned. -/
def pagedParams (parameter_collection : List (String × PV))
    (request_page : Nat) : List (String × PV) :=
  dictSet (dictSet parameter_collection "page" (PV.s (toString request_page)))
    "per_page" (PV.s (toString REQUEST_PAGE_SIZE))

/-- `default_item_processor` (source lines 89-91): yield each element of the
response list unchanged. -/
def default_item_processor {α : Type} (response_data : List α) : List α :=
  response_data

/-- Observable behaviour of one `_request_paged` generator run: the items
yielded in order, the parameter mappings sent per request in order, the
number of `_request` calls made, and the value of the caller's base
parameter mapping once the run is over. -/
structure PagedRun (α : Type) where
  items : List α
  sent : List (List (String × PV))
  requests : Nat
  finalParams : List (String × PV)
deriving DecidableEq

/-- The `while active` loop of `_request_paged` (source lines 96-119).
`fetch` stands for the decoded result of
`_request auth_token api_path parameter_paged_collection` and so models the
backend.  Iteration is driven by a fuel bound on the number of requests;
the loop itself stops exactly when a page yields no items after extraction. -/
def requestPagedGo {ρ α : Type} (fetch : List (String × PV) → List ρ)
    (item_processor : List ρ → List α)
    (parameter_collection : List (String × PV)) :
    Nat → Nat → PagedRun α
  | 0, _ => ⟨[], [], 0, parameter_collection⟩
  | fuel + 1, request_page =>
    let parameter_paged_collection := pagedParams parameter_collection request_page
    let response_data := fetch parameter_paged_collection
    let items := item_processor response_data
    if items.isEmpty then
      ⟨[], [parameter_paged_collection], 1, parameter_collection⟩
    else
      let rest := requestPagedGo fetch item_processor parameter_collection
        fuel (request_page + 1)
      ⟨items ++ rest.items, parameter_paged_collection :: rest.sent,
       rest.requests + 1, rest.finalParams⟩

/-- `_request_paged` (source lines 80-119): starts at page 1, substitutes
`default_item_processor` when no item processor is given.  `auth_token` and
`api_path` are fixed across the run and absorbed into `fetch`, which models
the decoded result of `_request` on the merged parameters. -/
def _request_paged {α : Type} (auth_token : Option String) (api_path : String)
    (fetch : List (String × PV) → List α)
    (parameter_collection : List (String × PV) := [])
    (item_processor : Option (List α → List α) := none)
    (fuel : Nat := 0) : PagedRun α :=
  let _ := auth_token
  let _ := api_path
  requestPagedGo fetch (item_processor.getD default_item_processor)
    parameter_collection fuel 1

/-- `_urlquote` (source lines 122-123). -/
def _urlquote (value : String) : String :=
  urllib_parse_quote value

/-- `user_repository_list` (source lines 127-130). -/
def user_repository_list {α : Type} (fetch : List (String × PV) → List α)
    (auth_token : Option String) (repository_type : String) (fuel : Nat) :
    PagedRun α :=
  _request_paged auth_token "user/repos" fetch
    [("type", PV.s repository_type)] none fuel

/-- `organization_repository_list` (source lines 134-141). -/
def organization_repository_list {α : Type}
    (fetch : List (String × PV) → List α) (auth_token : Option String)
    (organization_name : String) (repository_type : String) (fuel : Nat) :
    PagedRun α :=
  _request_paged auth_token ("orgs/" ++ _urlquote organization_name ++ "/repos")
    fetch [("type", PV.s repository_type)] none fuel

/-- `add_property` (source lines 160-162): assign `patch_collection[key]`
when the argument is not `None`. -/
def add_property (patch_collection : List (String × PV)) (param : Option PV)
    (key : String) : List (String × PV) :=
  match param with
  | none => patch_collection
  | some v => dictSet patch_collection key v

/-- The `patch_collection` built by `update_repository_properties` (source
lines 157-170): `name` plus one entry per non-`None` optional argument. -/
def patch_collection (repository : String)
    (default_branch description homepage issues private_arg : Option String)
    (projects wiki : Option Bool) : List (String × PV) :=
  let pc : List (String × PV) := [("name", PV.s repository)]
  let pc := add_property pc (default_branch.map PV.s) "default_branch"
  let pc := add_property pc (description.map PV.s) "description"
  let pc := add_property pc (homepage.map PV.s) "homepage"
  let pc := add_property pc (issues.map PV.s) "has_issues"
  let pc := add_property pc (private_arg.map PV.s) "private"
  let pc := add_property pc (projects.map PV.b) "has_projects"
  add_property pc (wiki.map PV.b) "has_wiki"

/-- `update_repository_properties` (source lines 145-178): single PATCH to
`repos/<owner>/<repository>` with the assembled patch collection. -/
def update_repository_properties {J : Type}
    (urlopen : PyRequest → UrlopenResult) (json_load : String → Except String J)
    (auth_token : Option String) (owner repository : String)
    (default_branch : Option String := none)
    (description : Option String := none)
    (homepage : Option String := none)
    (issues : Option String := none)
    (private_arg : Option String := none)
    (projects : Option Bool := none)
    (wiki : Option Bool := none) : RequestOutcome J × List PyRequest :=
  _request urlopen json_load auth_token
    ("repos/" ++ _urlquote owner ++ "/" ++ _urlquote repository)
    (some "PATCH")
    (patch_collection repository default_branch description homepage issues
      private_arg projects wiki)

/-- `user_subscription_list` (source lines 182-183). -/
def user_subscription_list {α : Type} (fetch : List (String × PV) → List α)
    (auth_token : Option String) (fuel : Nat) : PagedRun α :=
  _request_paged auth_token "user/subscriptions" fetch [] none fuel

/-- `repository_subscription` (source lines 187-191): single GET. -/
def repository_subscription {J : Type} (urlopen : PyRequest → UrlopenResult)
    (json_load : String → Except String J) (auth_token : Option String)
    (owner repository : String) : RequestOutcome J × List PyRequest :=
  _request urlopen json_load auth_token
    ("repos/" ++ _urlquote owner ++ "/" ++ _urlquote repository ++ "/subscription")

/-- `set_user_repository_subscription` (source lines 195-207): single PUT
with a two-entry parameter mapping, both flags defaulting to `False`. -/
def set_user_repository_subscription {J : Type}
    (urlopen : PyRequest → UrlopenResult) (json_load : String → Except String J)
    (auth_token : Option String) (owner repository : String)
    (subscribed : Bool := false) (ignored : Bool := false) :
    RequestOutcome J × List PyRequest :=
  _request urlopen json_load auth_token
    ("repos/" ++ _urlquote owner ++ "/" ++ _urlquote repository ++ "/subscription")
    (some "PUT")
    [("subscribed", PV.b subscribed), ("ignored", PV.b ignored)]

/-- `repository_webhook_list` (source lines 211-217): single GET with the
default (empty) parameter mapping, no pagination. -/
def repository_webhook_list {J : Type} (urlopen : PyRequest → UrlopenResult)
    (json_load : String → Except String J) (auth_token : Option String)
    (owner repository : String) : RequestOutcome J × List PyRequest :=
  _request urlopen json_load auth_token
    ("repos/" ++ _urlquote owner ++ "/" ++ _urlquote repository ++ "/hooks")

/-- Specification-side helper: concatenation of the pages
`itemsAt page, itemsAt (page + 1), ...` for `count` consecutive pages. -/
def pagesConcat {α : Type} (itemsAt : Nat → List α) : Nat → Nat → List α
  | _, 0 => []
  | page, count + 1 => itemsAt page ++ pagesConcat itemsAt (page + 1) count

/-- Specification-side helper: the list
`[paramsAt page, paramsAt (page + 1), ...]` of length `count`. -/
def sentList (paramsAt : Nat → List (String × PV)) :
    Nat → Nat → List (List (String × PV))
  | _, 0 => []
  | page, count + 1 => paramsAt page :: sentList paramsAt (page + 1) count

/-- Specification-side helper: the entry list contributed by one optional
string argument of `update_repository_properties`. -/
def optEntryS (arg : Option String) (key : String) : List (String × PV) :=
  match arg with
  | none => []
  | some v => [(key, PV.s v)]

/-- Specification-side helper: the entry list contributed by one optional
boolean argument of `update_repository_properties`. -/
def optEntryB (arg : Option Bool) (key : String) : List (String × PV) :=
  match arg with
  | none => []
  | some v => [(key, PV.b v)]

/-! ## Association-list lemmas -/

theorem lookup_append {β : Type} (key : String) (l1 l2 : List (String × β)) :
    List.lookup key (l1 ++ l2) =
      match List.lookup key l1 with
      | some b => some b
      | none => List.lookup key l2 := by
  induction l1 with
  | nil => rfl
  | cons kv rest ih =>
    obtain ⟨a, b⟩ := kv
    cases h : (key == a) with
    | true => simp [List.lookup, h]
    | false => simp [List.lookup, h, ih]


theorem any_key_eq_false_lookup {β : Type} (d : List (String × β)) (k : String)
    (h : d.any (fun kv => kv.1 == k) = false) : List.lookup k d = none := by
  induction d with
  | nil => rfl
  | cons kv rest ih =>
    obtain ⟨a, b⟩ := kv
    simp only [List.any_cons, Bool.or_eq_false_iff] at h
    have hk' : (k == a) = false := by
      refine beq_eq_false_iff_ne.mpr (Ne.symm ?_)
      exact beq_eq_false_iff_ne.mp h.1
    simp [List.lookup, hk', ih h.2]

theorem lookup_map_replace {β : Type} (d : List (String × β)) (k : String)
    (v : β) (h : d.any (fun kv => kv.1 == k) = true) :
    List.lookup k (d.map (fun kv => if kv.1 == k then (k, v) else kv)) =
      some v := by
  induction d with
  | nil => simp at h
  | cons kv rest ih =>
    obtain ⟨a, b⟩ := kv
    simp only [List.map_cons]
    by_cases ha : a = k
    · subst ha
      rw [if_pos (beq_self_eq_true a)]
      simp [List.lookup]
    · have ha' : (a == k) = false := beq_eq_false_iff_ne.mpr ha
      rw [if_neg (by simp [ha'])]
      have hk' : (k == a) = false := beq_eq_false_iff_ne.mpr (Ne.symm ha)
      simp only [List.any_cons, ha', Bool.false_or] at h
      simp only [List.lookup, hk']
      simpa using ih h

theorem lookup_map_replace_ne {β : Type} (d : List (String × β)) (k : String)
    (v : β) (key : String) (h : key ≠ k) :
    List.lookup key (d.map (fun kv => if kv.1 == k then (k, v) else kv)) =
      List.lookup key d := by
  induction d with
  | nil => rfl
  | cons kv rest ih =>
    obtain ⟨a, b⟩ := kv
    simp only [List.map_cons]
    by_cases ha : a = k
    · subst ha
      rw [if_pos (beq_self_eq_true a)]
      have hk' : (key == a) = false := beq_eq_false_iff_ne.mpr h
      simp only [List.lookup, hk']
      simpa using ih
    · have ha' : (a == k) = false := beq_eq_false_iff_ne.mpr ha
      rw [if_neg (by simp [ha'])]
      cases hkey : (key == a) with
      | true => simp [List.lookup, hkey]
      | false =>
        simp only [List.lookup, hkey]
        simpa using ih

theorem lookup_dictSet_self {β : Type} (d : List (String × β)) (k : String)
    (v : β) : List.lookup k (dictSet d k v) = some v := by
  unfold dictSet
  split
  · exact lookup_map_replace d k v (by assumption)
  · rename_i h
    rw [lookup_append]
    have h' : d.any (fun kv => kv.1 == k) = false := by
      cases hb : d.any (fun kv => kv.1 == k) with
      | true => exact absurd hb h
      | false => rfl
    rw [any_key_eq_false_lookup d k h']
    simp [List.lookup]

theorem lookup_dictSet_ne {β : Type} (d : List (String × β)) (k : String)
    (v : β) (key : String) (h : key ≠ k) :
    List.lookup key (dictSet d k v) = List.lookup key d := by
  unfold dictSet
  split
  · exact lookup_map_replace_ne d k v key h
  · rw [lookup_append]
    have hk' : (key == k) = false := beq_eq_false_iff_ne.mpr h
    cases hd : List.lookup key d with
    | some b => simp
    | none => simp [List.lookup, hk']

/-! ## Pagination lemmas -/

theorem requestPagedGo_succ {ρ α : Type} (fetch : List (String × PV) → List ρ)
    (proc : List ρ → List α) (params : List (String × PV))
    (fuel page : Nat) :
    requestPagedGo fetch proc params (fuel + 1) page =
      if (proc (fetch (pagedParams params page))).isEmpty then
        ⟨[], [pagedParams params page], 1, params⟩
      else
        ⟨proc (fetch (pagedParams params page)) ++
           (requestPagedGo fetch proc params fuel (page + 1)).items,
         pagedParams params page ::
           (requestPagedGo fetch proc params fuel (page + 1)).sent,
         (requestPagedGo fetch proc params fuel (page + 1)).requests + 1,
         (requestPagedGo fetch proc params fuel (page + 1)).finalParams⟩ := rfl

theorem requestPagedGo_pages {ρ α : Type} (fetch : List (String × PV) → List ρ)
    (proc : List ρ → List α) (params : List (String × PV)) :
    ∀ (count page : Nat),
      (∀ i, i < count → proc (fetch (pagedParams params (page + i))) ≠ []) →
      proc (fetch (pagedParams params (page + count))) = [] →
      requestPagedGo fetch proc params (count + 1) page =
        ⟨pagesConcat (fun p => proc (fetch (pagedParams params p))) page count,
         sentList (pagedParams params) page (count + 1), count + 1, params⟩ := by
  intro count
  induction count with
  | zero =>
    intro page hfull hempty
    have h0 : proc (fetch (pagedParams params page)) = [] := by
      simpa using hempty
    rw [requestPagedGo_succ, if_pos (by simp [h0])]
    simp [pagesConcat, sentList]
  | succ k ih =>
    intro page hfull hempty
    have hne : proc (fetch (pagedParams params page)) ≠ [] := by
      have := hfull 0 (Nat.succ_pos k)
      simpa using this
    have hisEmpty : (proc (fetch (pagedParams params page))).isEmpty = false := by
      cases hl : proc (fetch (pagedParams params page)) with
      | nil => exact absurd hl hne
      | cons x xs => rfl
    have hrec := ih (page + 1)
      (fun i hi => by
        have := hfull (i + 1) (Nat.succ_lt_succ hi)
        have e : page + (i + 1) = page + 1 + i := by omega
        rwa [e] at this)
      (by
        have e : page + (k + 1) = page + 1 + k := by omega
        rwa [e] at hempty)
    rw [requestPagedGo_succ, if_neg (by simp [hisEmpty]), hrec]
    simp [pagesConcat, sentList]

theorem pagesConcat_length {α : Type} (itemsAt : Nat → List α) (size : Nat) :
    ∀ (count page : Nat),
      (∀ i, i < count → (itemsAt (page + i)).length = size) →
      (pagesConcat itemsAt page count).length = size * count := by
  intro count
  induction count with
  | zero => intro page hlen; simp [pagesConcat]
  | succ k ih =>
    intro page hlen
    have h0 : (itemsAt page).length = size := by
      have := hlen 0 (Nat.succ_pos k)
      simpa using this
    have hrec := ih (page + 1) (fun i hi => by
      have := hlen (i + 1) (Nat.succ_lt_succ hi)
      have e : page + (i + 1) = page + 1 + i := by omega
      rwa [e] at this)
    simp [pagesConcat, h0, hrec, Nat.mul_succ]
    omega

theorem requestPagedGo_sent_final {ρ α : Type}
    (fetch : List (String × PV) → List ρ) (proc : List ρ → List α)
    (params : List (String × PV)) :
    ∀ (fuel page : Nat),
      (requestPagedGo fetch proc params fuel page).sent =
        sentList (pagedParams params) page
          (requestPagedGo fetch proc params fuel page).sent.length ∧
      (requestPagedGo fetch proc params fuel page).finalParams = params := by
  intro fuel
  induction fuel with
  | zero => intro page; simp [requestPagedGo, sentList]
  | succ k ih =>
    intro page
    cases hisEmpty : (proc (fetch (pagedParams params page))).isEmpty with
    | true =>
      rw [requestPagedGo_succ, if_pos (by simp [hisEmpty])]
      simp [sentList]
    | false =>
      rw [requestPagedGo_succ, if_neg (by simp [hisEmpty])]
      have hrec := ih (page + 1)
      constructor
      · simp only [List.length_cons, sentList]
        exact congrArg _ hrec.1
      · exact hrec.2

/-! ## Encoding lemmas -/

theorem json_dumps_ne_empty (d : List (String × PV)) : json_dumps d ≠ "" := by
  intro h
  have hl := congrArg String.length h
  have h1 : ("\x7b" : String).length = 1 := rfl
  have h2 : ("\x7d" : String).length = 1 := rfl
  simp [json_dumps, String.length_append, h1, h2] at hl

theorem hexDigitChar_safe :
    ∀ m, m < 16 →
      alwaysSafeChar (if m < 10 then Char.ofNat (48 + m) else Char.ofNat (55 + m)) =
        true := by
  decide

theorem hexUpper_safe (n : Nat) : alwaysSafeChar (hexUpper n) = true := by
  unfold hexUpper
  exact hexDigitChar_safe (n % 16) (Nat.mod_lt n (by omega))

theorem mem_quoteChar_safe (safe : Char → Bool) (a c : Char)
    (hsub : ∀ x, alwaysSafeChar x = true → safe x = true)
    (hc : c ∈ quoteChar safe a) : safe c = true ∨ c = '%' := by
  unfold quoteChar at hc
  split at hc
  · rename_i hsafe
    simp only [List.mem_singleton] at hc
    subst hc
    exact Or.inl hsafe
  · simp only [List.mem_flatMap] at hc
    obtain ⟨byteVal, _, hcb⟩ := hc
    simp only [percentByte, List.mem_cons, List.mem_singleton] at hcb
    rcases hcb with h1 | h2 | h3
    · exact Or.inr h1
    · subst h2
      exact Or.inl (hsub _ (hexUpper_safe _))
    · rcases h3 with h3 | h3
      · subst h3
        exact Or.inl (hsub _ (hexUpper_safe _))
      · simp at h3

theorem mem_quote_data (s : String) (c : Char)
    (hc : c ∈ (urllib_parse_quote s).data) :
    (alwaysSafeChar c || c == '/') = true ∨ c = '%' := by
  have hdata : (urllib_parse_quote s).data =
      s.data.flatMap (quoteChar (fun x => alwaysSafeChar x || x == '/')) := rfl
  rw [hdata] at hc
  simp only [List.mem_flatMap] at hc
  obtain ⟨a, _, hca⟩ := hc
  exact mem_quoteChar_safe _ a c
    (fun x hx => by simp [hx]) hca

/-! ## Claim theorems -/

/-- C4: for every call to `update_repository_properties`, the PATCH body
mapping is exactly the key `name` (bound to the repository argument) plus
one key per supplied optional argument (`default_branch`, `description`,
`homepage`, `has_issues`, `private`, `has_projects`, `has_wiki`
respectively), with no key for any argument left as `None`. -/
theorem patch_collection_exact_fields (repository : String)
    (default_branch description homepage issues private_arg : Option String)
    (projects wiki : Option Bool) :
    patch_collection repository default_branch description homepage issues
        private_arg projects wiki =
      ("name", PV.s repository) ::
        (optEntryS default_branch "default_branch" ++
         optEntryS description "description" ++
         optEntryS homepage "homepage" ++
         optEntryS issues "has_issues" ++
         optEntryS private_arg "private" ++
         optEntryB projects "has_projects" ++
         optEntryB wiki "has_wiki") := by
  cases default_branch <;> cases description <;> cases homepage <;>
    cases issues <;> cases private_arg <;> cases projects <;> cases wiki <;>
    rfl

/-- C6: a GET call (`method` absent) URL-encodes every key/value pair of the
parameter mapping into the querystring of the request URL and carries no
body; an empty mapping leaves the URL without a querystring. -/
theorem request_get_query_no_body (auth_token : Option String)
    (api_path : String) (params : List (String × PV)) :
    (buildRequest auth_token api_path none params).data = none ∧
    (buildRequest auth_token api_path none params).method = none ∧
    (buildRequest auth_token api_path none params).url =
      (if params.isEmpty then API_BASE_URL ++ "/" ++ api_path
       else API_BASE_URL ++ "/" ++ api_path ++ "?" ++
         urllib_parse_urlencode params) ∧
    urllib_parse_urlencode params =
      String.intercalate "&" (params.map (fun kv =>
        urllib_parse_quote_plus kv.1 ++ "=" ++
          urllib_parse_quote_plus (pyStr kv.2))) := by
  refine ⟨rfl, rfl, ?_, rfl⟩
  cases params <;> rfl

/-- C5: a non-GET call with a non-empty parameter mapping sends the JSON
encoding of the mapping as the body and sets the JSON content type header;
an empty mapping sends no body and no content type header. -/
theorem request_nonget_body_content_type (auth_token : Option String)
    (api_path m : String) (params : List (String × PV)) :
    (buildRequest auth_token api_path (some m) params).data =
      (if params.isEmpty then none else some (json_dumps params)) ∧
    List.lookup "Content-Type"
        (buildRequest auth_token api_path (some m) params).headers =
      (if params.isEmpty then none else some REQUEST_DATA_CONTENT_TYPE) := by
  cases params with
  | nil =>
    cases auth_token <;> exact ⟨rfl, rfl⟩
  | cons kv rest =>
    have hne : (json_dumps (kv :: rest) == "") = false :=
      beq_eq_false_iff_ne.mpr (json_dumps_ne_empty _)
    constructor
    · have hdata : (buildRequest auth_token api_path (some m) (kv :: rest)).data =
          (if (json_dumps (kv :: rest) == "") = true then none
           else some (json_dumps (kv :: rest))) := rfl
      rw [hdata, hne]
      simp
    · cases auth_token with
      | none =>
        have hh : (buildRequest none api_path (some m) (kv :: rest)).headers =
            dictSet [("Accept", REQUEST_ACCEPT_VERSION),
                     ("User-Agent", REQUEST_USER_AGENT)]
              "Content-Type" REQUEST_DATA_CONTENT_TYPE := rfl
        rw [hh, lookup_dictSet_self]
        rfl
      | some t =>
        have hh : (buildRequest (some t) api_path (some m) (kv :: rest)).headers =
            dictSet [("Accept", REQUEST_ACCEPT_VERSION),
                     ("User-Agent", REQUEST_USER_AGENT),
                     ("Authorization", "token " ++ t)]
              "Content-Type" REQUEST_DATA_CONTENT_TYPE := rfl
        rw [hh, lookup_dictSet_self]
        rfl

/-- C7: every request carries the fixed accept-version and user-agent
headers; an `Authorization` header of the exact form `token <auth_token>`
is present when a token is supplied and absent when it is not. -/
theorem request_headers_fixed_and_auth (auth_token : Option String)
    (api_path : String) (method : Option String) (params : List (String × PV)) :
    List.lookup "Accept"
        (buildRequest auth_token api_path method params).headers =
      some REQUEST_ACCEPT_VERSION ∧
    List.lookup "User-Agent"
        (buildRequest auth_token api_path method params).headers =
      some REQUEST_USER_AGENT ∧
    List.lookup "Authorization"
        (buildRequest auth_token api_path method params).headers =
      Option.map (fun t => "token " ++ t) auth_token := by
  cases method with
  | none => cases auth_token <;> exact ⟨rfl, rfl, rfl⟩
  | some m =>
    cases params with
    | nil => cases auth_token <;> exact ⟨rfl, rfl, rfl⟩
    | cons kv rest =>
      cases auth_token with
      | none =>
        have hh : (buildRequest none api_path (some m) (kv :: rest)).headers =
            dictSet [("Accept", REQUEST_ACCEPT_VERSION),
                     ("User-Agent", REQUEST_USER_AGENT)]
              "Content-Type" REQUEST_DATA_CONTENT_TYPE := rfl
        refine ⟨?_, ?_, ?_⟩ <;>
          rw [hh, lookup_dictSet_ne _ _ _ _ (by decide)] <;> rfl
      | some t =>
        have hh : (buildRequest (some t) api_path (some m) (kv :: rest)).headers =
            dictSet [("Accept", REQUEST_ACCEPT_VERSION),
                     ("User-Agent", REQUEST_USER_AGENT),
                     ("Authorization", "token " ++ t)]
              "Content-Type" REQUEST_DATA_CONTENT_TYPE := rfl
        refine ⟨?_, ?_, ?_⟩ <;>
          rw [hh, lookup_dictSet_ne _ _ _ _ (by decide)] <;> rfl

/-- C10: `set_user_repository_subscription` issues one PUT whose parameter
mapping is exactly `subscribed` and `ignored` (defaulting to `False`), so
the request always carries a JSON body with exactly those two boolean keys
and the JSON content type header — the empty-body branch is unreachable. -/
theorem set_subscription_exact_put_body {J : Type}
    (urlopen : PyRequest → UrlopenResult) (json_load : String → Except String J)
    (auth_token : Option String) (owner repository : String)
    (subscribed ignored : Bool) :
    (set_user_repository_subscription urlopen json_load auth_token owner
        repository subscribed ignored).2 =
      [buildRequest auth_token
        ("repos/" ++ _urlquote owner ++ "/" ++ _urlquote repository ++
          "/subscription")
        (some "PUT")
        [("subscribed", PV.b subscribed), ("ignored", PV.b ignored)]] ∧
    (buildRequest auth_token
        ("repos/" ++ _urlquote owner ++ "/" ++ _urlquote repository ++
          "/subscription")
        (some "PUT")
        [("subscribed", PV.b subscribed), ("ignored", PV.b ignored)]).data =
      some ("\x7b\"subscribed\":" ++ jsonValue (PV.b subscribed) ++
            ",\"ignored\":" ++ jsonValue (PV.b ignored) ++ "\x7d") ∧
    List.lookup "Content-Type"
        (buildRequest auth_token
          ("repos/" ++ _urlquote owner ++ "/" ++ _urlquote repository ++
            "/subscription")
          (some "PUT")
          [("subscribed", PV.b subscribed), ("ignored", PV.b ignored)]).headers =
      some REQUEST_DATA_CONTENT_TYPE ∧
    set_user_repository_subscription urlopen json_load auth_token owner
        repository =
      set_user_repository_subscription urlopen json_load auth_token owner
        repository false false := by
  refine ⟨rfl, ?_, ?_, rfl⟩
  · cases subscribed <;> cases ignored <;> rfl
  · cases auth_token with
    | none =>
      have hh : (buildRequest none
          ("repos/" ++ _urlquote owner ++ "/" ++ _urlquote repository ++
            "/subscription")
          (some "PUT")
          [("subscribed", PV.b subscribed), ("ignored", PV.b ignored)]).headers =
          dictSet [("Accept", REQUEST_ACCEPT_VERSION),
                   ("User-Agent", REQUEST_USER_AGENT)]
            "Content-Type" REQUEST_DATA_CONTENT_TYPE := rfl
      rw [hh, lookup_dictSet_self]
    | some t =>
      have hh : (buildRequest (some t)
          ("repos/" ++ _urlquote owner ++ "/" ++ _urlquote repository ++
            "/subscription")
          (some "PUT")
          [("subscribed", PV.b subscribed), ("ignored", PV.b ignored)]).headers =
          dictSet [("Accept", REQUEST_ACCEPT_VERSION),
                   ("User-Agent", REQUEST_USER_AGENT),
                   ("Authorization", "token " ++ t)]
            "Content-Type" REQUEST_DATA_CONTENT_TYPE := rfl
      rw [hh, lookup_dictSet_self]

/-- C9: `repository_webhook_list` issues exactly one request — a single GET
to `repos/<owner>/<repository>/hooks` with the empty parameter mapping, so
no `page` / `per_page` parameters and no querystring — and returns the
decoded JSON response verbatim; the operation is not paginated. -/
theorem repository_webhook_list_single_get {J : Type}
    (urlopen : PyRequest → UrlopenResult) (json_load : String → Except String J)
    (auth_token : Option String) (owner repository : String) :
    (repository_webhook_list urlopen json_load auth_token owner repository).2 =
      [buildRequest auth_token
        ("repos/" ++ _urlquote owner ++ "/" ++ _urlquote repository ++ "/hooks")
        none []] ∧
    (buildRequest auth_token
        ("repos/" ++ _urlquote owner ++ "/" ++ _urlquote repository ++ "/hooks")
        none []).method = none ∧
    (buildRequest auth_token
        ("repos/" ++ _urlquote owner ++ "/" ++ _urlquote repository ++ "/hooks")
        none []).data = none ∧
    (buildRequest auth_token
        ("repos/" ++ _urlquote owner ++ "/" ++ _urlquote repository ++ "/hooks")
        none []).url =
      API_BASE_URL ++ "/" ++
        ("repos/" ++ _urlquote owner ++ "/" ++ _urlquote repository ++ "/hooks") ∧
    ∀ (body : String) (value : J),
      urlopen (buildRequest auth_token
        ("repos/" ++ _urlquote owner ++ "/" ++ _urlquote repository ++ "/hooks")
        none []) = UrlopenResult.success body →
      json_load body = Except.ok value →
      (repository_webhook_list urlopen json_load auth_token owner repository).1 =
        RequestOutcome.ok value := by
  refine ⟨rfl, rfl, rfl, rfl, ?_⟩
  intro body value h1 h2
  have hout : (repository_webhook_list urlopen json_load auth_token owner
      repository).1 =
      match urlopen (buildRequest auth_token
        ("repos/" ++ _urlquote owner ++ "/" ++ _urlquote repository ++ "/hooks")
        none []) with
      | UrlopenResult.httpError code b =>
          RequestOutcome.apiRequestError code (pyStrOfBytes b)
      | UrlopenResult.raised message => RequestOutcome.urlopenRaised message
      | UrlopenResult.success b =>
          match json_load b with
          | Except.ok v => RequestOutcome.ok v
          | Except.error e => RequestOutcome.jsonRaised e := rfl
  rw [hout]
  simp only [h1, h2]

/-- C9 witness: a backend answering `[]` makes `repository_webhook_list`
return the decoded value verbatim. -/
theorem repository_webhook_list_single_get_witness :
    (repository_webhook_list (fun _ => UrlopenResult.success "[]")
      (fun _ => (Except.ok 0 : Except String Nat)) none "o" "r").1 =
      RequestOutcome.ok 0 := by
  exact (repository_webhook_list_single_get (fun _ => UrlopenResult.success "[]")
    (fun _ => (Except.ok 0 : Except String Nat)) none "o" "r").2.2.2.2 "[]" 0
    rfl rfl

/-- C2 (failing input): on an HTTP 404 whose body is the bytes of
`not found`, `_request` raises `APIRequestError` with the exact status code
but with `response` equal to the Python `str()` of the bytes object — the
repr `b` prefix and quotes included — which differs from the raw body
text. -/
theorem request_http_error_body_is_bytes_repr :
    (_request
        (fun _ => UrlopenResult.httpError 404
          [110, 111, 116, 32, 102, 111, 117, 110, 100])
        (fun _ => (Except.error "unused" : Except String Nat))
        none "user/repos" none []).1 =
      RequestOutcome.apiRequestError 404
        (pyStrOfBytes [110, 111, 116, 32, 102, 111, 117, 110, 100]) ∧
    pyStrOfBytes [110, 111, 116, 32, 102, 111, 117, 110, 100] =
      String.mk ('b' :: Char.ofNat 39 :: ("not found".data ++ [Char.ofNat 39])) ∧
    pyStrOfBytes [110, 111, 116, 32, 102, 111, 117, 110, 100] ≠ "not found" := by
  refine ⟨rfl, by decide, by decide⟩

/-- C3 counterexample: `_urlquote` passes a slash through unencoded — for
the repository name `a/b` the quoted segment is `a/b` itself, containing
the reserved slash and no percent escape at all. -/
theorem urlquote_slash_passthrough :
    _urlquote "a/b" = "a/b" ∧
    Char.ofNat 47 ∈ (_urlquote "a/b").data ∧
    ¬ Char.ofNat 37 ∈ (_urlquote "a/b").data := by
  refine ⟨rfl, by decide, by decide⟩

/-- C3 (amended): every character of a quoted path segment is either in the
safe set of `urllib.parse.quote` — ASCII alphanumerics, `_ . - ~` and the
slash, which passes through unencoded — or part of a percent escape; and
the URL built by `update_repository_properties` interpolates exactly the
quoted owner and repository names. -/
theorem urlquote_reserved_percent_encoded :
    (∀ (s : String) (c : Char), c ∈ (urllib_parse_quote s).data →
      (alwaysSafeChar c || c == '/') = true ∨ c = '%') ∧
    ∀ {J : Type} (urlopen : PyRequest → UrlopenResult)
      (json_load : String → Except String J) (auth_token : Option String)
      (owner repository : String)
      (default_branch description homepage issues private_arg : Option String)
      (projects wiki : Option Bool),
      (update_repository_properties urlopen json_load auth_token owner
          repository default_branch description homepage issues private_arg
          projects wiki).2.map PyRequest.url =
        [API_BASE_URL ++ "/" ++
          ("repos/" ++ _urlquote owner ++ "/" ++ _urlquote repository)] := by
  constructor
  · exact fun s c hc => mem_quote_data s c hc
  · intro J urlopen json_load auth_token owner repository db de ho is pr pj wi
    rfl

/-- C3 witness: the percent sign of an encoded space in `a b` satisfies the
safe-or-escape property. -/
theorem urlquote_reserved_percent_encoded_witness :
    (alwaysSafeChar (Char.ofNat 37) || Char.ofNat 37 == '/') = true ∨
      Char.ofNat 37 = '%' := by
  exact urlquote_reserved_percent_encoded.1 "a b" (Char.ofNat 37) (by decide)

/-- C1: when the backend answers with `N` pages each yielding
`REQUEST_PAGE_SIZE` items after extraction followed by an empty page, the
`_request_paged` run yields exactly `REQUEST_PAGE_SIZE * N` items, page by
page in backend order, and issues exactly `N + 1` requests; in particular
`N = 0` (empty first page) yields zero items after one request, and the
sequence ends exactly when a page yields zero items after extraction. -/
theorem request_paged_full_pages {α : Type} (auth_token : Option String)
    (api_path : String) (fetch : List (String × PV) → List α)
    (params : List (String × PV)) (proc : List α → List α) (N : Nat)
    (hfull : ∀ p, 1 ≤ p → p ≤ N →
      (proc (fetch (pagedParams params p))).length = REQUEST_PAGE_SIZE)
    (hempty : proc (fetch (pagedParams params (N + 1))) = []) :
    (_request_paged auth_token api_path fetch params (some proc) (N + 1)).items =
      pagesConcat (fun p => proc (fetch (pagedParams params p))) 1 N ∧
    (_request_paged auth_token api_path fetch params (some proc)
        (N + 1)).items.length = REQUEST_PAGE_SIZE * N ∧
    (_request_paged auth_token api_path fetch params (some proc)
        (N + 1)).requests = N + 1 := by
  have hrun : _request_paged auth_token api_path fetch params (some proc)
      (N + 1) = requestPagedGo fetch proc params (N + 1) 1 := rfl
  have hfull' : ∀ i, i < N →
      proc (fetch (pagedParams params (1 + i))) ≠ [] := by
    intro i hi hnil
    have hlen := hfull (1 + i) (by omega) (by omega)
    rw [hnil] at hlen
    simp [REQUEST_PAGE_SIZE] at hlen
  have hempty' : proc (fetch (pagedParams params (1 + N))) = [] := by
    have e : 1 + N = N + 1 := by omega
    rwa [e]
  have hgo := requestPagedGo_pages fetch proc params N 1 hfull' hempty'
  refine ⟨?_, ?_, ?_⟩
  · rw [hrun, hgo]
  · rw [hrun, hgo]
    exact pagesConcat_length _ REQUEST_PAGE_SIZE N 1
      (fun i hi => hfull (1 + i) (by omega) (by omega))
  · rw [hrun, hgo]

/-- C1 witness: one full page of 20 items then an empty page gives 20 items
in 2 requests. -/
theorem request_paged_full_pages_witness :
    (_request_paged none "user/repos"
        (fun ps => if List.lookup "page" ps == some (PV.s "1") then
          List.range 20 else ([] : List Nat))
        [] (some (fun l => l)) 2).items.length = REQUEST_PAGE_SIZE * 1 ∧
    (_request_paged none "user/repos"
        (fun ps => if List.lookup "page" ps == some (PV.s "1") then
          List.range 20 else ([] : List Nat))
        [] (some (fun l => l)) 2).requests = 1 + 1 := by
  have hf : ∀ p, 1 ≤ p → p ≤ 1 →
      ((fun (l : List Nat) => l)
        ((fun ps => if List.lookup "page" ps == some (PV.s "1") then
          List.range 20 else ([] : List Nat)) (pagedParams [] p))).length =
        REQUEST_PAGE_SIZE := by
    intro p h1 h2
    have hp : p = 1 := by omega
    subst hp
    decide
  have he : (fun (l : List Nat) => l)
      ((fun ps => if List.lookup "page" ps == some (PV.s "1") then
        List.range 20 else ([] : List Nat)) (pagedParams [] (1 + 1))) = [] := by
    decide
  have h := request_paged_full_pages none "user/repos"
    (fun ps => if List.lookup "page" ps == some (PV.s "1") then
      List.range 20 else ([] : List Nat))
    [] (fun l => l) 1 hf he
  exact ⟨h.2.1, h.2.2⟩

/-- C8: every iteration of `_request_paged` sends the caller's base mapping
merged with `page` (starting at 1, incremented per page, as a string) and
`per_page` (the fixed page size `20`), these two overriding any same-named
base keys and every other key keeping its base value; the base mapping
itself is equal after the run to its value before — it is copied, never
mutated. -/
theorem request_paged_merge_no_mutation {α : Type} (auth_token : Option String)
    (api_path : String) (fetch : List (String × PV) → List α)
    (params : List (String × PV)) (item_processor : Option (List α → List α))
    (fuel : Nat) :
    (_request_paged auth_token api_path fetch params item_processor fuel).sent =
      sentList (pagedParams params) 1
        (_request_paged auth_token api_path fetch params item_processor
          fuel).sent.length ∧
    (∀ p : Nat,
      List.lookup "page" (pagedParams params p) = some (PV.s (toString p)) ∧
      List.lookup "per_page" (pagedParams params p) = some (PV.s "20")) ∧
    (∀ (p : Nat) (key : String), key ≠ "page" → key ≠ "per_page" →
      List.lookup key (pagedParams params p) = List.lookup key params) ∧
    (_request_paged auth_token api_path fetch params item_processor
        fuel).finalParams = params := by
  have hgo := requestPagedGo_sent_final fetch
    (item_processor.getD default_item_processor) params fuel 1
  refine ⟨hgo.1, ?_, ?_, hgo.2⟩
  · intro p
    constructor
    · have hp : pagedParams params p =
          dictSet (dictSet params "page" (PV.s (toString p))) "per_page"
            (PV.s (toString REQUEST_PAGE_SIZE)) := rfl
      rw [hp, lookup_dictSet_ne _ _ _ _ (by decide), lookup_dictSet_self]
    · have hp : pagedParams params p =
          dictSet (dictSet params "page" (PV.s (toString p))) "per_page"
            (PV.s (toString REQUEST_PAGE_SIZE)) := rfl
      rw [hp, lookup_dictSet_self]
      rfl
  · intro p key h1 h2
    have hp : pagedParams params p =
        dictSet (dictSet params "page" (PV.s (toString p))) "per_page"
          (PV.s (toString REQUEST_PAGE_SIZE)) := rfl
    rw [hp, lookup_dictSet_ne _ _ _ _ h2, lookup_dictSet_ne _ _ _ _ h1]

/-- C8 witness: with base mapping `type=owner`, the merged page-1 mapping
keeps `type`, gains `page=1`, and the run leaves the base mapping equal to
its original value. -/
theorem request_paged_merge_no_mutation_witness :
    List.lookup "type" (pagedParams [("type", PV.s "owner")] 1) =
      List.lookup "type" [("type", PV.s "owner")] ∧
    List.lookup "page" (pagedParams [("type", PV.s "owner")] 1) =
      some (PV.s "1") ∧
    (_request_paged none "user/repos" (fun _ => ([] : List Nat))
        [("type", PV.s "owner")] none 1).finalParams =
      [("type", PV.s "owner")] := by
  have h := request_paged_merge_no_mutation none "user/repos"
    (fun _ => ([] : List Nat)) [("type", PV.s "owner")] none 1
  exact ⟨h.2.2.1 1 "type" (by decide) (by decide), (h.2.1 1).1, h.2.2.2⟩
